import Mathlib

/-!
Verification development for the offshape exporter: a shallow embedding of
the request signer, rate limiter, API client operations, export/pull
orchestration and the output materializer, together with theorems that
settle the specification claims against the code.

Machine integers from the source are embedded as `Nat` with explicit
reduction modulo `2 ^ 32` where 32-bit overflow matters; byte strings are
`List Nat` with every element intended below 256; fallible operations
return `Except`/`Option`, and operations that can panic in the source are
embedded with an outcome type distinguishing a propagated error from a
process abort.
-/

namespace Offshape

/-! ## Byte and word utilities (32-bit arithmetic as Nat mod 2^32) -/

/-- Reduce a natural number to a 32-bit word, as the `u32` of the source wraps. -/
def w32 (n : Nat) : Nat := n % 4294967296

/-- Right rotation of a 32-bit word by `k` bits. -/
def rotr (k n : Nat) : Nat := w32 (n / 2 ^ k + n % 2 ^ k * 2 ^ (32 - k))

/-- Logical right shift of a 32-bit word by `k` bits. -/
def shr (k n : Nat) : Nat := n / 2 ^ k

/-- Bitwise complement within 32 bits. -/
def cpl (n : Nat) : Nat := 4294967295 - w32 n

/-- Big-endian byte expansion of `n` into `k` bytes (most significant first). -/
def bigEndian : Nat → Nat → List Nat
  | 0, _ => []
  | k + 1, n => bigEndian k (n / 256) ++ [n % 256]

/-! ## SHA-256 (as used by the `sha2` crate through `Hmac<Sha256>`) -/

/-- The SHA-256 round constants. -/
def sha256K : List Nat :=
  [1116352408, 1899447441, 3049323471, 3921009573, 961987163, 1508970993,
   2453635748, 2870763221, 3624381080, 310598401, 607225278, 1426881987,
   1925078388, 2162078206, 2614888103, 3248222580, 3835390401, 4022224774,
   264347078, 604807628, 770255983, 1249150122, 1555081692, 1996064986,
   2554220882, 2821834349, 2952996808, 3210313671, 3336571891, 3584528711,
   113926993, 338241895, 666307205, 773529912, 1294757372, 1396182291,
   1695183700, 1986661051, 2177026350, 2456956037, 2730485921, 2820302411,
   3259730800, 3345764771, 3516065817, 3600352804, 4094571909, 275423344,
   430227734, 506948616, 659060556, 883997877, 958139571, 1322822218,
   1537002063, 1747873779, 1955562222, 2024104815, 2227730452, 2361852424,
   2428436474, 2756734187, 3204031479, 3329325298]

/-- The SHA-256 initial hash state. -/
def sha256H0 : List Nat :=
  [1779033703, 3144134277, 1013904242, 2773480762, 1359893119, 2600822924,
   528734635, 1541459225]

/-- SHA-256 choose function. -/
def sha256Ch (x y z : Nat) : Nat := Nat.xor (Nat.land x y) (Nat.land (cpl x) z)

/-- SHA-256 majority function. -/
def sha256Maj (x y z : Nat) : Nat :=
  Nat.xor (Nat.xor (Nat.land x y) (Nat.land x z)) (Nat.land y z)

/-- SHA-256 big sigma 0. -/
def bsig0 (x : Nat) : Nat := Nat.xor (rotr 2 x) (Nat.xor (rotr 13 x) (rotr 22 x))

/-- SHA-256 big sigma 1. -/
def bsig1 (x : Nat) : Nat := Nat.xor (rotr 6 x) (Nat.xor (rotr 11 x) (rotr 25 x))

/-- SHA-256 small sigma 0. -/
def ssig0 (x : Nat) : Nat := Nat.xor (rotr 7 x) (Nat.xor (rotr 18 x) (shr 3 x))

/-- SHA-256 small sigma 1. -/
def ssig1 (x : Nat) : Nat := Nat.xor (rotr 17 x) (Nat.xor (rotr 19 x) (shr 10 x))

/-- SHA-256 message padding: append `0x80`, zeros to 56 mod 64, then the
bit length as 8 big-endian bytes. -/
def sha256Pad (msg : List Nat) : List Nat :=
  msg ++ [128] ++ List.replicate ((119 - msg.length % 64) % 64) 0
      ++ bigEndian 8 (msg.length * 8)

/-- Group bytes into big-endian 32-bit words. -/
def bytesToWords : List Nat → List Nat
  | b1 :: b2 :: b3 :: b4 :: rest =>
      (((b1 * 256 + b2) * 256 + b3) * 256 + b4) :: bytesToWords rest
  | _ => []

/-- Extend the 16 block words into the 64-entry message schedule. -/
def sha256Schedule (ws : List Nat) : List Nat :=
  (List.range 48).foldl
    (fun acc _ =>
      acc ++ [w32 (ssig1 (acc.getD (acc.length - 2) 0) + acc.getD (acc.length - 7) 0
                   + ssig0 (acc.getD (acc.length - 15) 0) + acc.getD (acc.length - 16) 0)])
    ws

/-- One SHA-256 compression round on the 8-word working state. -/
def sha256Round (st : List Nat) (k w : Nat) : List Nat :=
  match st with
  | [a, b, c, d, e, f, g, h] =>
      let t1 := w32 (h + bsig1 e + sha256Ch e f g + k + w)
      let t2 := w32 (bsig0 a + sha256Maj a b c)
      [w32 (t1 + t2), a, b, c, w32 (d + t1), e, f, g]
  | other => other

/-- Compress one 64-byte block into the running hash state. -/
def sha256Compress (hs : List Nat) (block : List Nat) : List Nat :=
  let ws := sha256Schedule (bytesToWords block)
  let fin := (sha256K.zip ws).foldl (fun st kw => sha256Round st kw.1 kw.2) hs
  (hs.zip fin).map (fun p => w32 (p.1 + p.2))

/-- Fold the compression function over consecutive 64-byte blocks. -/
def sha256Blocks : List Nat → List Nat → List Nat
  | hs, [] => hs
  | hs, b :: bs =>
      sha256Blocks (sha256Compress hs ((b :: bs).take 64)) ((b :: bs).drop 64)
  termination_by _ l => l.length
  decreasing_by
    simp only [List.length_drop, List.length_cons]
    omega

/-- SHA-256 of a byte string, as a 32-byte string. -/
def sha256 (msg : List Nat) : List Nat :=
  ((sha256Blocks sha256H0 (sha256Pad msg)).map (bigEndian 4)).flatten

/-! ## HMAC-SHA256 (the `hmac` crate with `HmacSha256 = Hmac<Sha256>`) -/

/-- HMAC-SHA256 over byte strings: pad or hash the key to the 64-byte block
size, then hash with the inner and outer pads. -/
def hmacSha256 (key msg : List Nat) : List Nat :=
  let k0 := if 64 < key.length then sha256 key else key
  let kp := k0 ++ List.replicate (64 - k0.length) 0
  sha256 (kp.map (Nat.xor 92) ++ sha256 (kp.map (Nat.xor 54) ++ msg))

/-! ## Base64 (standard alphabet, with padding, as `STANDARD.encode`) -/

/-- The standard base64 alphabet. -/
def base64Table : List Char :=
  "ABCDEFGHIJKLMNOPQRSTUVWXYZabcdefghijklmnopqrstuvwxyz0123456789+/".data

/-- The base64 digit for a 6-bit value. -/
def b64Char (n : Nat) : Char := base64Table.getD n 'A'

/-- Standard padded base64 of a byte string, as a character list. -/
def base64Chars : List Nat → List Char
  | [] => []
  | [b1] => [b64Char (b1 / 4), b64Char (b1 % 4 * 16), '=', '=']
  | [b1, b2] => [b64Char (b1 / 4), b64Char (b1 % 4 * 16 + b2 / 16), b64Char (b2 % 16 * 4), '=']
  | b1 :: b2 :: b3 :: rest =>
      b64Char (b1 / 4) :: b64Char (b1 % 4 * 16 + b2 / 16) ::
      b64Char (b2 % 16 * 4 + b3 / 64) :: b64Char (b3 % 64) :: base64Chars rest

/-- Standard padded base64 of a byte string
(the source uses the STANDARD engine, not STANDARD_NO_PAD). -/
def base64Encode (bs : List Nat) : String := ⟨base64Chars bs⟩

/-! ## Strings as bytes and simple text transforms -/

/-- UTF-8 encoding of one code point, as `str::as_bytes` of Rust sees it. -/
def utf8Enc (n : Nat) : List Nat :=
  if n < 128 then [n]
  else if n < 2048 then [192 + n / 64, 128 + n % 64]
  else if n < 65536 then [224 + n / 4096, 128 + n / 64 % 64, 128 + n % 64]
  else [240 + n / 262144, 128 + n / 4096 % 64, 128 + n / 64 % 64, 128 + n % 64]

/-- The UTF-8 bytes of a string (`str::as_bytes`). -/
def strBytes (s : String) : List Nat := (s.data.map (fun c => utf8Enc c.toNat)).flatten

/-- Lowercase folding of a string, embedding `str::to_lowercase` for the
character ranges the signer sees (ASCII header material). -/
def lowerFold (s : String) : String := ⟨s.data.map Char.toLower⟩

/-- Value of one hexadecimal digit, if any. -/
def hexVal (c : Char) : Option Nat :=
  if '0' ≤ c ∧ c ≤ '9' then some (c.toNat - 48)
  else if 'a' ≤ c ∧ c ≤ 'f' then some (c.toNat - 87)
  else if 'A' ≤ c ∧ c ≤ 'F' then some (c.toNat - 55)
  else none

/-- Percent decoding over characters, embedding `percent_decode_str`
followed by UTF-8 decoding for the ASCII escapes a query carries; an
invalid escape is left as it stands, as the crate does. -/
def percentDecodeChars : List Char → List Char
  | [] => []
  | '%' :: c1 :: c2 :: rest =>
      match hexVal c1, hexVal c2 with
      | some hi, some lo => Char.ofNat (hi * 16 + lo) :: percentDecodeChars rest
      | _, _ => '%' :: percentDecodeChars (c1 :: c2 :: rest)
  | c :: rest => c :: percentDecodeChars rest

/-- Percent decoding of a string. -/
def percentDecode (s : String) : String := ⟨percentDecodeChars s.data⟩

/-! ## Data model (src/onshape/models.rs) -/

/-- The lifecycle state of a translation job (`TranslationState`). -/
inductive TranslationState where
  | Active
  | Done
  | Failed
  deriving DecidableEq, Repr

/-- The requested export format (`ExportFileFormat`). -/
inductive ExportFileFormat where
  | ThreeMF
  | Step
  | Stl
  deriving DecidableEq, Repr

/-- Whether a format goes through the asynchronous job pipeline or a direct
synchronous export (`ExportAction`). -/
inductive ExportAction where
  | Translate
  | Direct
  deriving DecidableEq, Repr

/-- The output file extension of a format (`ExportFileFormat::extension`). -/
def extensionOf : ExportFileFormat → String
  | .ThreeMF => "3mf"
  | .Step => "step"
  | .Stl => "stl"

/-- How a format is exported (`ExportFileFormat::export_action`). -/
def exportActionOf : ExportFileFormat → ExportAction
  | .ThreeMF => .Translate
  | .Step => .Translate
  | .Stl => .Direct

/-- A server-side translation job (`TranslationJob`); the `href` URL is kept
as a string. -/
structure TranslationJob where
  name : String
  url : String
  request_state : TranslationState
  failure_reason : Option String
  document_id : String
  result_external_data_ids : Option (List String)
  deriving DecidableEq, Repr

/-- A job paired with its destination filename and requested format
(`TranslationJobWithOutput`). -/
structure TranslationJobWithOutput where
  job : TranslationJob
  output_filename : String
  format : ExportFileFormat
  deriving DecidableEq, Repr

/-! ## Request signer (OnShapeClient::request, src/onshape/client.rs) -/

/-- The fixed content type the client signs and sends
(`mime::APPLICATION_JSON`). -/
def contentTypeValue : String := "application/json"

/-- The fixed versioned Accept header value. -/
def acceptValue : String := "application/vnd.onshape.v2+json;charset=UTF-8;qs=0.2"

/-- The headers a signed request carries. -/
structure SignedRequest where
  authorization : String
  accept : String
  contentType : String
  date : String
  nonce : String
  deriving DecidableEq, Repr

/-- The signature plaintext: the lowercase folding of the newline-joined
method, nonce, date, content type, path and decoded query, with the
trailing newline the protocol requires. -/
def signaturePlaintext (method nonce date path query : String) : String :=
  lowerFold (method ++ "\n" ++ nonce ++ "\n" ++ date ++ "\n" ++ contentTypeValue
             ++ "\n" ++ path ++ "\n" ++ query ++ "\n")

/-- The base64-encoded HMAC-SHA256 tag of a plaintext under the secret key. -/
def computeSignature (secretKey plaintext : String) : String :=
  base64Encode (hmacSha256 (strBytes secretKey) (strBytes plaintext))

/-- The signing step of `OnShapeClient::request`: the fresh nonce and the
formatted HTTP date are inputs here because the source draws them from the
RNG and the wall clock; the query arrives percent-encoded from the URL and
is decoded before signing. -/
def onShapeRequest (accessKey secretKey method path rawQuery date nonce : String) :
    SignedRequest :=
  let query := percentDecode rawQuery
  let plaintext := signaturePlaintext method nonce date path query
  let authorizationVal :=
    "On " ++ accessKey ++ ":HmacSHA256:" ++ computeSignature secretKey plaintext
  { authorization := authorizationVal
    accept := acceptValue
    contentType := contentTypeValue
    date := date
    nonce := nonce }

/-! ## Rate limiter

The client constructs `RateLimiter::direct(Quota::per_second(4))` from the
governor crate. The limiter itself is library code outside this repository;
its documented semantics is the generic cell rate algorithm with a
replenishment interval of 250 milliseconds and a burst capacity of four
cells, embedded here over nanoseconds as `Nat`. The state is the
theoretical arrival time of the next cell. -/

/-- Nanoseconds between replenished cells: one second over four cells. -/
def replenishNs : Nat := 250000000

/-- The burst tolerance: the burst capacity times the replenishment
interval, one second in nanoseconds. -/
def burstToleranceNs : Nat := 1000000000

/-- One second in nanoseconds. -/
def oneSecondNs : Nat := 1000000000

/-- Whether a cell is admitted at time `now` given the stored theoretical
arrival time `tat`: governor admits when `now` is at or past
`tat + t - tau` (saturating). -/
def gcraCheck (tat now : Nat) : Bool := tat + replenishNs ≤ now + burstToleranceNs

/-- The stored state after admitting a cell at time `x`. -/
def gcraUpdate (tat x : Nat) : Nat := max tat x + replenishNs

/-- The earliest time a denied caller can be admitted, which
`wait_time_from` has the caller sleep until. -/
def gcraEarliest (tat : Nat) : Nat := tat + replenishNs - burstToleranceNs

/-- The acquisition loop in `OnShapeClient::request`: check the limiter; on
denial sleep for the returned wait time and check again. It yields the
admission time and the advanced limiter state and never fails. -/
def acquire (tat now : Nat) : Nat × Nat :=
  if gcraCheck tat now then (now, gcraUpdate tat now)
  else (gcraEarliest tat, gcraUpdate tat (gcraEarliest tat))

/-- Sequential requests through the shared limiter: given the arrival time
of each request, the list of admission times. -/
def runLimiter : Nat → List Nat → List Nat
  | _, [] => []
  | tat, a :: rest => (acquire tat a).1 :: runLimiter (acquire tat a).2 rest

/-- A full `request` call: one pass through the limiter gate, then the
signing step. Returns the signed headers and the advanced limiter state. -/
def requestWithLimiter (tat now : Nat)
    (accessKey secretKey method path rawQuery date nonce : String) :
    SignedRequest × Nat :=
  let gate := acquire tat now
  (onShapeRequest accessKey secretKey method path rawQuery date nonce, gate.2)

/-! ## Client operations over a stubbed transport -/

/-- The result of running a fallible Rust computation: a returned value, a
propagated `Err`, or a process-aborting panic (from `assert!`, `expect` or
`unwrap`). -/
inductive RustOutcome (α : Type) where
  | ok (a : α)
  | err (e : String)
  | panicked (msg : String)
  deriving DecidableEq, Repr

/-- Whether an outcome is a propagated error value. -/
def RustOutcome.isErr {α : Type} : RustOutcome α → Bool
  | .err _ => true
  | _ => false

/-- Whether an outcome is a panic. -/
def RustOutcome.isPanic {α : Type} : RustOutcome α → Bool
  | .panicked _ => true
  | _ => false

/-- An HTTP response as the client observes it: status code, optional
Location header, and body text. -/
structure StubResponse where
  status : Nat
  location : Option String
  body : String
  deriving DecidableEq, Repr

/-- `StatusCode::is_redirection`: a 3xx status. -/
def isRedirection (status : Nat) : Bool := 300 ≤ status ∧ status < 400

/-- `OnShapeClient::get_part_stl`: send the first request; propagate a
transport failure with `?`; `assert!` the response is a redirect and
`expect` the Location header (both panic on violation); then send a second
request to the redirect target and return its body. The first component
lists the URLs actually requested. -/
def get_part_stl (net : String → Except String StubResponse) (url : String) :
    List String × RustOutcome String :=
  match net url with
  | .error e => ([url], .err e)
  | .ok res =>
      if isRedirection res.status then
        match res.location with
        | none => ([url], .panicked "Missing location header")
        | some loc =>
            match net loc with
            | .error e => ([url, loc], .err e)
            | .ok res2 => ([url, loc], .ok res2.body)
      else ([url], .panicked "Redirect expected")

/-! ## DATE line stripping (OnShapeClient::get_part_parasolid)

The source removes, via `Regex::replace` with the multiline pattern
matching `DATE=` followed by the rest of the line and its newline, the
leftmost such match from the fetched parasolid text. -/

/-- The characters of the `DATE=` marker. -/
def dateMarker : List Char := ['D', 'A', 'T', 'E', '=']

/-- Whether the text begins with the `DATE=` marker. -/
def startsWithDate (l : List Char) : Bool := dateMarker.isPrefixOf l

/-- Whether the `DATE=` marker occurs anywhere in the text. -/
def containsDate : List Char → Bool
  | [] => false
  | c :: cs => startsWithDate (c :: cs) || containsDate cs

/-- Remove the leftmost match of the pattern (the marker, the rest of its
line, and the terminating newline) from the text, leaving everything else
unchanged; without a complete match (marker with no later newline) nothing
is removed. This embeds `Regex::replace` with pattern `(?m)DATE=.*$\n` and
an empty replacement: `replace` rewrites only the first match. -/
def stripDateLine : List Char → List Char
  | [] => []
  | c :: cs =>
      if startsWithDate (c :: cs) && ((c :: cs).drop 5).contains '\n' then
        (((c :: cs).drop 5).dropWhile (fun x => x ≠ '\n')).tail
      else c :: stripDateLine cs

/-- `OnShapeClient::get_part_parasolid`: the same two-step redirect fetch
as the STL path, then the DATE-line normalization applied to the fetched
text before it is returned to the orchestrator. -/
def get_part_parasolid (net : String → Except String StubResponse) (url : String) :
    List String × RustOutcome String :=
  match net url with
  | .error e => ([url], .err e)
  | .ok res =>
      if isRedirection res.status then
        match res.location with
        | none => ([url], .panicked "Missing location header")
        | some loc =>
            match net loc with
            | .error e => ([url, loc], .err e)
            | .ok res2 => ([url, loc], .ok ⟨stripDateLine res2.body.data⟩)
      else ([url], .panicked "Redirect expected")

/-! ## Job submission and polling (client side) -/

/-- `OnShapeClient::begin_translation`: the destination filename is the
basename joined to the format extension; the job payload comes back from
the server (here a stub), and is wrapped with the filename and the
requested format. -/
def begin_translation (server : TranslationJob) (format : ExportFileFormat)
    (basename : String) : TranslationJobWithOutput :=
  { job := server
    output_filename := basename ++ "." ++ extensionOf format
    format := format }

/-- `OnShapeClient::check_translation`: re-fetch the job payload from the
job URL (the fetched payload is a parameter here) and rewrap it with the
stored output filename and format; the input value is not modified. -/
def check_translation (fetched : TranslationJob) (job : TranslationJobWithOutput) :
    TranslationJobWithOutput :=
  { job := fetched
    output_filename := job.output_filename
    format := job.format }

/-! ## Orchestrator (src/export.rs and src/pull.rs) -/

/-- The observable side effects of an orchestrator run, in order. -/
inductive Effect where
  | listElements
  | listParts (studio : String)
  | createDir (path : String)
  | cleanDir (path : String)
  | logExport (msg : String)
  | beginTranslation (format : ExportFileFormat) (studio part basename : String)
  | httpGet (url : String)
  | writeFile (path : String) (bytes : List Nat)
  | logFailure (reason : String)
  deriving DecidableEq, Repr

/-- A part entry of the configuration (`SyncedPart`). -/
structure SyncedPart where
  id : String
  basename : String
  deriving DecidableEq, Repr

/-- A part-studio entry of the configuration (`SyncedPartStudio`). -/
structure SyncedPartStudio where
  id : String
  synced_parts : List SyncedPart
  deriving DecidableEq, Repr

/-- The part-resolution loop body of `export`: each configured part id must
appear in the live part listing of the studio; the first missing one aborts with
the `Part not found` error, otherwise the (part id, basename) pairs to
export are collected. -/
def checkParts (live : List String) : List SyncedPart → Except String (List (String × String))
  | [] => .ok []
  | p :: rest =>
      if live.contains p.id then
        match checkParts live rest with
        | .error e => .error e
        | .ok tl => .ok ((p.id, p.basename) :: tl)
      else .error ("Part not found, part_id=" ++ p.id)

/-- The studio-resolution loop of `export`: each configured studio id must
appear in the live element listing, else the run aborts with the
`Could not find a part studio` error; for a present studio the live parts
are listed (an effect) and the configured parts are checked. Returns the
effects performed and the resolution result. -/
def resolveStudios (elementIds : List String) (partsOf : String → List String) :
    List SyncedPartStudio →
    List Effect × Except String (List (String × List (String × String)))
  | [] => ([], .ok [])
  | st :: rest =>
      if elementIds.contains st.id then
        match checkParts (partsOf st.id) st.synced_parts with
        | .error e => ([Effect.listParts st.id], .error e)
        | .ok assigned =>
            let r := resolveStudios elementIds partsOf rest
            (Effect.listParts st.id :: r.1, r.2.map (fun tl => (st.id, assigned) :: tl))
      else ([], .error ("Could not find a part studio (" ++ st.id ++ ")"))

/-- The directory preparation pass: create the output directory of each format
and, when cleaning is on, clean it. -/
def dirEffects (formats : List (ExportFileFormat × String)) (cleanPaths : Bool) :
    List Effect :=
  formats.foldr
    (fun fp acc =>
      Effect.createDir fp.2 :: (if cleanPaths then Effect.cleanDir fp.2 :: acc else acc))
    []

/-- The submission pass of `export` (src/export.rs): for every resolved
studio, part and configured format, log the export and begin a
translation. -/
def submitEffects (formats : List (ExportFileFormat × String))
    (assigns : List (String × List (String × String))) : List Effect :=
  assigns.foldr
    (fun sa acc =>
      sa.2.foldr
        (fun pb acc2 =>
          formats.foldr
            (fun fp acc3 =>
              Effect.logExport (pb.2 ++ "." ++ extensionOf fp.1)
                :: Effect.beginTranslation fp.1 sa.1 pb.1 pb.2 :: acc3)
            acc2)
        acc)
    []

/-- The `export` run of src/export.rs up to the poll loop: list elements,
resolve every configured target against the live listings, and only when
all of them resolve create and clean the output directories and submit one
translation job per target and format. A resolution failure returns the
error with the effects performed so far. -/
def exportRun (elementIds : List String) (partsOf : String → List String)
    (formats : List (ExportFileFormat × String)) (cleanPaths : Bool)
    (studios : List SyncedPartStudio) : List Effect × Option String :=
  let r := resolveStudios elementIds partsOf studios
  match r.2 with
  | .error e => (Effect.listElements :: r.1, some e)
  | .ok assigns =>
      (Effect.listElements :: r.1 ++ dirEffects formats cleanPaths
         ++ submitEffects formats assigns, none)

/-- Whether a configured target is missing from the live listings. -/
def hasBadTarget (elementIds : List String) (partsOf : String → List String)
    (studios : List SyncedPartStudio) : Bool :=
  studios.any (fun st =>
    !(elementIds.contains st.id)
      || st.synced_parts.any (fun p => !((partsOf st.id).contains p.id)))

/-- Whether an effect submits a job or touches the output tree. -/
def isSideEffect : Effect → Bool
  | .beginTranslation .. => true
  | .createDir _ => true
  | .cleanDir _ => true
  | .writeFile .. => true
  | _ => false

/-! ## The poll pass (the `while !active_jobs.is_empty()` body)

The source maps `check_translation` over the in-flight vector, groups the
refreshed jobs with itertools `group_by` — which groups CONSECUTIVE
elements sharing a key, not the whole collection — and then matches on each
group key: an `Active` group is ASSIGNED to `next` (overwriting whatever an
earlier `Active` group put there), a `Done` group is downloaded and
written, a `Failed` group has its reasons logged. -/

/-- Helper for consecutive grouping: the current run is `h` followed by
`rev` reversed. -/
def groupRunsAux {α β : Type} [DecidableEq β] (key : α → β) :
    α → List α → List α → List (β × List α)
  | h, rev, [] => [(key h, h :: rev.reverse)]
  | h, rev, x :: rest =>
      if key x = key h then groupRunsAux key h (x :: rev) rest
      else (key h, h :: rev.reverse) :: groupRunsAux key x [] rest

/-- Itertools `group_by`: split a list into maximal runs of consecutive
elements sharing a key. -/
def groupRuns {α β : Type} [DecidableEq β] (key : α → β) : List α → List (β × List α)
  | [] => []
  | x :: xs => groupRunsAux key x [] xs

/-- One iteration of the poll loop: refresh every in-flight job, group the
refreshed jobs by consecutive state runs, and fold the groups exactly as
the match of the source does, yielding the next in-flight vector and the
write/log effects of this pass. `refresh` stands for a successful
`check_translation` against the live server, `download` for
`download_translated_file`, `formatPath` for `config.format_path`. -/
def pollPass (refresh : TranslationJobWithOutput → TranslationJobWithOutput)
    (download : TranslationJobWithOutput → List Nat)
    (formatPath : ExportFileFormat → String)
    (active : List TranslationJobWithOutput) :
    List TranslationJobWithOutput × List Effect :=
  let checked := active.map refresh
  let groups := groupRuns (fun j => j.job.request_state) checked
  groups.foldl
    (fun acc g =>
      match g.1 with
      | .Active => (g.2, acc.2)
      | .Done =>
          (acc.1,
           acc.2 ++ g.2.map (fun j =>
             Effect.writeFile (formatPath j.format ++ "/" ++ j.output_filename)
               (download j)))
      | .Failed =>
          (acc.1,
           acc.2 ++ g.2.map (fun j =>
             Effect.logFailure (j.job.failure_reason.getD "Unknown reason"))))
    ([], [])

/-- The poll pass when a poll can fail: the source calls
`client.check_translation(j).unwrap()`, so the first failing poll panics
the process instead of surfacing an error value. -/
def pollPassChecked (refresh : TranslationJobWithOutput → Except String TranslationJobWithOutput)
    (download : TranslationJobWithOutput → List Nat)
    (formatPath : ExportFileFormat → String)
    (active : List TranslationJobWithOutput) :
    RustOutcome (List TranslationJobWithOutput × List Effect) :=
  if active.all (fun j => (refresh j).isOk) then
    .ok (pollPass (fun j => ((refresh j).toOption.getD j)) download formatPath active)
  else .panicked "called `Result::unwrap()` on an `Err` value"

/-! ## The pull submission phase (src/pull.rs)

The pull variant of the orchestrator derives one target per live part of
each synced studio; for each target it submits a translation job for every
configured format whose action is `Translate`, and for the `Direct` STL
format it fetches the artifact synchronously and writes it immediately,
before the poll loop runs. -/

/-- The submission pass of the pull orchestrator: `partsOf` gives the live
(part id, basename) pairs of a studio, `server` stubs the job payload
`begin_translation` receives back, and `stlFetch` stubs the text the
two-step direct export returns. Yields the effects of the pass and the
in-flight job set the poll loop starts from. -/
def pullSubmitPhase (formats : List (ExportFileFormat × String))
    (partsOf : String → List (String × String))
    (server : String → String → ExportFileFormat → TranslationJob)
    (stlFetch : String → String → String)
    (studios : List String) : List Effect × List TranslationJobWithOutput :=
  (studios.bind (fun st =>
     (partsOf st).bind (fun pb =>
       (formats.filter (fun fp => exportActionOf fp.1 = ExportAction.Translate)).bind
         (fun fp => [Effect.logExport (pb.2 ++ "." ++ extensionOf fp.1)])
       ++ (formats.filter (fun fp => exportActionOf fp.1 = ExportAction.Direct)).bind
         (fun fp =>
           if fp.1 = ExportFileFormat.Stl then
             [Effect.logExport (pb.2 ++ "." ++ extensionOf fp.1),
              Effect.writeFile (fp.2 ++ "/" ++ pb.2 ++ "." ++ extensionOf fp.1)
                (strBytes (stlFetch st pb.1))]
           else [Effect.logExport (pb.2 ++ "." ++ extensionOf fp.1)]))),
   studios.bind (fun st =>
     (partsOf st).bind (fun pb =>
       (formats.filter (fun fp => exportActionOf fp.1 = ExportAction.Translate)).map
         (fun fp => begin_translation (server st pb.1 fp.1) fp.1 pb.2))))

/-! ## Output materializer (write_output_file, src/pull.rs) -/

/-- An on-disk file: its bytes and its modification timestamp. -/
structure FileRecord where
  contents : List Nat
  mtime : Nat
  deriving DecidableEq, Repr

/-- A filesystem as an association list from paths to files; the first
binding of a path is current. -/
def Fs : Type := List (String × FileRecord)

/-- Look up the current file at a path. -/
def fsGet (fs : Fs) (p : String) : Option FileRecord :=
  ((fs : List (String × FileRecord)).find? (fun e => e.1 = p)).map (fun e => e.2)

/-- Apply `g` to the file at path `p`. -/
def fsModify (fs : Fs) (p : String) (g : FileRecord → FileRecord) : Fs :=
  (fs : List (String × FileRecord)).map (fun e => if e.1 = p then (e.1, g e.2) else e)

/-- `File::create`: a newly created (or truncated) file, empty, stamped
with the current time. -/
def fileCreate (fs : Fs) (p : String) (now : Nat) : Fs :=
  ((p, ⟨[], now⟩) :: (fs : List (String × FileRecord)) : List (String × FileRecord))

/-- `File::write`: append the bytes to the file. -/
def fileWrite (fs : Fs) (p : String) (bytes : List Nat) : Fs :=
  fsModify fs p (fun fr => ⟨fr.contents ++ bytes, fr.mtime⟩)

/-- `File::set_modified`: reset the modification timestamp. -/
def fileSetModified (fs : Fs) (p : String) (t : Nat) : Fs :=
  fsModify fs p (fun fr => ⟨fr.contents, t⟩)

/-- `write_output_file`: create the file, write the bytes, and when the
strip flag is set reset the modification time to the Unix epoch (time 0);
the final flush does not change the model. -/
def write_output_file (fs : Fs) (p : String) (bytes : List Nat)
    (strip_timestamps : Bool) (now : Nat) : Fs :=
  let fs1 := fileCreate fs p now
  let fs2 := fileWrite fs1 p bytes
  if strip_timestamps then fileSetModified fs2 p 0 else fs2

/-! ## Concrete data for the poll-loop evaluation -/

/-- A concrete in-flight job in its initial `Active` state. -/
def c1baseJob (nm : String) : TranslationJobWithOutput :=
  { job := { name := nm, url := "https://cad.onshape.com/api/translations/" ++ nm
             request_state := TranslationState.Active, failure_reason := none
             document_id := "doc1", result_external_data_ids := some [nm ++ "-data"] }
    output_filename := nm ++ ".3mf"
    format := ExportFileFormat.ThreeMF }

/-- A poll outcome where the middle job finished and its neighbours are
still running: the refreshed states are Active, Done, Active. -/
def c1refresh (j : TranslationJobWithOutput) : TranslationJobWithOutput :=
  if j.job.name = "j2" then
    { j with job := { j.job with request_state := TranslationState.Done } }
  else j

/-- A stub artifact download. -/
def c1download (_ : TranslationJobWithOutput) : List Nat := [51, 109, 102]

/-- A stub output directory per format. -/
def c1formatPath (_ : ExportFileFormat) : String := "out"

/-- Three concrete in-flight jobs. -/
def c1jobs : List TranslationJobWithOutput :=
  [c1baseJob "j1", c1baseJob "j2", c1baseJob "j3"]

/-- C1: the claim states that a poll iteration partitions the whole
in-flight set by state and that every job reported `Active` is retained for
the next iteration. Evaluating the embedded poll pass on three jobs whose
refreshed states are Active, Done, Active shows the claim fails on the
code: itertools `group_by` groups only consecutive elements, and the
`Active` arm assigns (rather than extends) the next in-flight vector, so
the refreshed first job — still reported `Active` — is dropped from the
in-flight set, only the last consecutive Active run survives, and the
file of the dropped job can never be written. -/
theorem c1_poll_pass_drops_active_job :
    (c1refresh (c1baseJob "j1")).job.request_state = TranslationState.Active ∧
    (pollPass c1refresh c1download c1formatPath c1jobs).1 = [c1baseJob "j3"] ∧
    c1baseJob "j1" ∉ (pollPass c1refresh c1download c1formatPath c1jobs).1 ∧
    (pollPass c1refresh c1download c1formatPath c1jobs).2
      = [Effect.writeFile "out/j2.3mf" [51, 109, 102]] := by decide

/-- C2: the Authorization header of a signed request is exactly
`On access:HmacSHA256:signature` where the signature is the standard padded
base64 of the HMAC-SHA256 tag, under the secret key, of the
lowercase-folded newline-joined method, nonce, date, content type, path
and decoded query with the trailing newline included; and the request
carries the nonce and date headers, the fixed versioned Accept value and
the fixed Content-Type. -/
theorem c2_request_signing_form
    (accessKey secretKey method path rawQuery date nonce : String) :
    onShapeRequest accessKey secretKey method path rawQuery date nonce =
      { authorization :=
          "On " ++ accessKey ++ ":HmacSHA256:"
            ++ base64Encode (hmacSha256 (strBytes secretKey)
                 (strBytes (lowerFold (method ++ "\n" ++ nonce ++ "\n" ++ date ++ "\n"
                   ++ "application/json" ++ "\n" ++ path ++ "\n"
                   ++ percentDecode rawQuery ++ "\n"))))
        accept := "application/vnd.onshape.v2+json;charset=UTF-8;qs=0.2"
        contentType := "application/json"
        date := date
        nonce := nonce } := rfl

/-- C10: polling a job preserves its destination output filename and its
requested format exactly; only the server-side job payload is replaced by
the freshly fetched one, and the input job value is returned unchanged in
those components (the embedding is a pure function of the input, matching
the source taking the job by shared reference). -/
theorem c10_check_translation_frame (fetched : TranslationJob)
    (job : TranslationJobWithOutput) :
    (check_translation fetched job).output_filename = job.output_filename ∧
    (check_translation fetched job).format = job.format ∧
    (check_translation fetched job).job = fetched :=
  ⟨rfl, rfl, rfl⟩

/-- C7: with the strip flag set the materializer writes the given bytes to
a newly created file and pins its modification time to the epoch, so the
resulting file is independent of the wall clock and writing the same bytes
twice in a row leaves an identical file, timestamp included; with the flag
clear the timestamp is the one `File::create` stamped, the current time. -/
theorem c7_write_output_reproducible (fs fs2 : Fs) (p : String) (bytes : List Nat)
    (now1 now2 now3 : Nat) :
    fsGet (write_output_file fs p bytes true now1) p = some ⟨bytes, 0⟩ ∧
    fsGet (write_output_file (write_output_file fs p bytes true now1) p bytes true now2) p
      = fsGet (write_output_file fs p bytes true now1) p ∧
    fsGet (write_output_file fs2 p bytes true now2) p
      = fsGet (write_output_file fs p bytes true now1) p ∧
    fsGet (write_output_file fs p bytes false now3) p = some ⟨bytes, now3⟩ := by
  refine ⟨?_, ?_, ?_, ?_⟩ <;>
    simp [write_output_file, fileCreate, fileWrite, fileSetModified, fsModify, fsGet]

/-! ## Rate limiter lemmas -/

/-- After an acquisition the stored state sits one replenishment interval
past the admission time or later. -/
theorem acquire_state_ge_adm (tat now : Nat) :
    (acquire tat now).1 + replenishNs ≤ (acquire tat now).2 := by
  have h1 := Nat.le_max_left tat now
  have h2 := Nat.le_max_right tat now
  have h3 := Nat.le_max_left tat (gcraEarliest tat)
  have h4 := Nat.le_max_right tat (gcraEarliest tat)
  by_cases h : gcraCheck tat now <;> simp [acquire, gcraUpdate, h] <;> omega

/-- Each acquisition advances the stored state by at least one
replenishment interval. -/
theorem acquire_state_ge_tat (tat now : Nat) :
    tat + replenishNs ≤ (acquire tat now).2 := by
  have h1 := Nat.le_max_left tat now
  have h3 := Nat.le_max_left tat (gcraEarliest tat)
  by_cases h : gcraCheck tat now <;> simp [acquire, gcraUpdate, h] <;> omega

/-- No admission happens more than the burst tolerance ahead of the stored
next theoretical arrival of the state. -/
theorem acquire_adm_lb (tat now : Nat) :
    tat + replenishNs ≤ (acquire tat now).1 + burstToleranceNs := by
  by_cases h : gcraCheck tat now
  · simp only [gcraCheck, decide_eq_true_eq] at h
    simp [acquire, gcraCheck, h]
  · simp [acquire, h, gcraEarliest]
    omega

/-- A caller denied a token is admitted after a single wait: checking again
at the earliest admission time the limiter reported always succeeds. -/
theorem gcra_recheck_succeeds (tat : Nat) :
    gcraCheck tat (gcraEarliest tat) = true := by
  simp [gcraCheck, gcraEarliest]
  omega

/-- Unfolding a sequential run one step. -/
theorem runLimiter_cons (tat a : Nat) (rest : List Nat) :
    runLimiter tat (a :: rest) = (acquire tat a).1 :: runLimiter (acquire tat a).2 rest :=
  rfl

/-- The limiter never drops a request: every arrival is admitted. -/
theorem runLimiter_length (arr : List Nat) :
    ∀ tat : Nat, (runLimiter tat arr).length = arr.length := by
  induction arr with
  | nil => intro tat; rfl
  | cons a rest ih =>
    intro tat
    rw [runLimiter_cons, List.length_cons, List.length_cons, ih]

/-- Admission `k` of a run cannot come earlier than the initial state plus
`k + 1` replenishment intervals, minus the burst tolerance. -/
theorem runLimiter_adm_lb (arr : List Nat) :
    ∀ tat k : Nat, k < (runLimiter tat arr).length →
    tat + (k + 1) * replenishNs ≤ (runLimiter tat arr).getD k 0 + burstToleranceNs := by
  induction arr with
  | nil => intro tat k h; exact absurd h (by exact Nat.not_lt_zero k)
  | cons a rest ih =>
    intro tat k h
    cases k with
    | zero =>
      have hb := acquire_adm_lb tat a
      rw [runLimiter_cons, List.getD_cons_zero]
      omega
    | succ k =>
      have hlen : k < (runLimiter (acquire tat a).2 rest).length := by
        rw [runLimiter_cons, List.length_cons] at h
        omega
      have hk := ih (acquire tat a).2 k hlen
      have ht := acquire_state_ge_tat tat a
      rw [runLimiter_cons, List.getD_cons_succ]
      have expand : (k + 1 + 1) * replenishNs = (k + 1) * replenishNs + replenishNs := by
        ring
      omega

set_option maxRecDepth 4000 in
/-- Among any eight consecutive admissions of a sequential run through the
limiter, the first and the eighth lie at least one second apart: four cells
of burst plus replenishment at four per second bound the throughput. -/
theorem runLimiter_spacing (arr : List Nat) :
    ∀ tat i : Nat, i + 7 < (runLimiter tat arr).length →
    (runLimiter tat arr).getD i 0 + oneSecondNs ≤ (runLimiter tat arr).getD (i + 7) 0 := by
  induction arr with
  | nil => intro tat i h; exact absurd h (by exact Nat.not_lt_zero _)
  | cons a rest ih =>
    intro tat i h
    rw [runLimiter_cons, List.length_cons] at h
    cases i with
    | zero =>
      have hlen : 6 < (runLimiter (acquire tat a).2 rest).length := by omega
      have hA := runLimiter_adm_lb rest (acquire tat a).2 6 hlen
      have h1 := acquire_state_ge_adm tat a
      rw [runLimiter_cons, Nat.zero_add, show (7 : Nat) = 6 + 1 from rfl,
          List.getD_cons_succ, List.getD_cons_zero]
      simp only [replenishNs, burstToleranceNs, oneSecondNs] at hA h1 ⊢
      omega
    | succ i =>
      have hlen : i + 7 < (runLimiter (acquire tat a).2 rest).length := by omega
      have hi := ih (acquire tat a).2 i hlen
      have e : i + 1 + 7 = (i + 7) + 1 := by omega
      rw [runLimiter_cons, e, List.getD_cons_succ, List.getD_cons_succ]
      exact hi

/-- C3 counterexample: five requests arriving together are all admitted
within the first quarter second — the limiter built from a quota of four
per second admits a burst of four at once and a fifth after one
replenishment interval, so more than four requests are admitted inside a
rolling one-second window, against the at-most-four bound of the claim. -/
theorem c3_five_admissions_within_one_second :
    runLimiter 0 [0, 0, 0, 0, 0] = [0, 0, 0, 0, 250000000] ∧
    ((runLimiter 0 [0, 0, 0, 0, 0]).filter (fun t => t < oneSecondNs)).length = 5 := by
  constructor <;> decide

/-- C3 amended: the gate never errors and never drops a request (every
arrival is admitted, and a denied caller that sleeps for the reported wait
always succeeds on its re-check); each logical request passes the gate
exactly once before the signing step; and the admission rate is bounded by
the guarantee of the generic cell rate algorithm for a four-per-second quota
with burst four: any eight consecutive admissions span at least one
second, rather than at most four admissions per second as the claim states. -/
theorem c3_limiter_no_drop_and_burst_bound (arr : List Nat) (tat0 i tat now : Nat)
    (accessKey secretKey method path rawQuery date nonce : String)
    (h : i + 7 < (runLimiter tat0 arr).length) :
    (runLimiter tat0 arr).length = arr.length ∧
    (runLimiter tat0 arr).getD i 0 + oneSecondNs ≤ (runLimiter tat0 arr).getD (i + 7) 0 ∧
    gcraCheck tat (gcraEarliest tat) = true ∧
    requestWithLimiter tat now accessKey secretKey method path rawQuery date nonce
      = (onShapeRequest accessKey secretKey method path rawQuery date nonce,
         (acquire tat now).2) :=
  ⟨runLimiter_length arr tat0, runLimiter_spacing arr tat0 i h,
   gcra_recheck_succeeds tat, rfl⟩

/-- Witness for C3 amended at a concrete run of eight simultaneous
arrivals. -/
theorem c3_limiter_witness :
    0 + 7 < (runLimiter 0 [0, 0, 0, 0, 0, 0, 0, 0]).length ∧
    ((runLimiter 0 [0, 0, 0, 0, 0, 0, 0, 0]).length = [0, 0, 0, 0, 0, 0, 0, 0].length ∧
     (runLimiter 0 [0, 0, 0, 0, 0, 0, 0, 0]).getD 0 0 + oneSecondNs
       ≤ (runLimiter 0 [0, 0, 0, 0, 0, 0, 0, 0]).getD (0 + 7) 0 ∧
     gcraCheck 5 (gcraEarliest 5) = true ∧
     requestWithLimiter 5 3 "ak" "sk" "GET" "/api/x" "a=b" "date" "nonce"
       = (onShapeRequest "ak" "sk" "GET" "/api/x" "a=b" "date" "nonce",
          (acquire 5 3).2)) :=
  ⟨by decide,
   c3_limiter_no_drop_and_burst_bound [0, 0, 0, 0, 0, 0, 0, 0] 0 0 5 3
     "ak" "sk" "GET" "/api/x" "a=b" "date" "nonce" (by decide)⟩

/-! ## Resolution fail-fast lemmas (C4) -/

/-- If some configured part is absent from the live listing, the part check
returns the resolution error. -/
theorem checkParts_error_of_missing (live : List String) (parts : List SyncedPart)
    (h : parts.any (fun p => !(live.contains p.id)) = true) :
    ∃ e, checkParts live parts = Except.error e := by
  induction parts with
  | nil => exact absurd h (by simp)
  | cons p rest ih =>
    cases hp : live.contains p.id with
    | false =>
      refine ⟨"Part not found, part_id=" ++ p.id, ?_⟩
      unfold checkParts
      rw [hp]
      simp
    | true =>
      have hrest : rest.any (fun q => !(live.contains q.id)) = true := by
        rw [List.any_cons, hp] at h
        simpa using h
      obtain ⟨e, he⟩ := ih hrest
      refine ⟨e, ?_⟩
      unfold checkParts
      rw [hp, he]
      simp

/-- If some configured target is absent from the live listings, studio
resolution returns a resolution error. -/
theorem resolveStudios_error (elementIds : List String) (partsOf : String → List String)
    (studios : List SyncedPartStudio)
    (h : hasBadTarget elementIds partsOf studios = true) :
    ∃ e, (resolveStudios elementIds partsOf studios).2 = Except.error e := by
  induction studios with
  | nil => exact absurd h (by simp [hasBadTarget])
  | cons st rest ih =>
    cases hel : elementIds.contains st.id with
    | false =>
      refine ⟨"Could not find a part studio (" ++ st.id ++ ")", ?_⟩
      unfold resolveStudios
      rw [hel]
      simp
    | true =>
      cases hcp : checkParts (partsOf st.id) st.synced_parts with
      | error e2 =>
        refine ⟨e2, ?_⟩
        unfold resolveStudios
        rw [hel, hcp]
        rfl
      | ok assigned =>
        have hparts : st.synced_parts.any (fun p => !((partsOf st.id).contains p.id)) = false := by
          cases hq : st.synced_parts.any (fun p => !((partsOf st.id).contains p.id)) with
          | false => rfl
          | true =>
            obtain ⟨e, he⟩ := checkParts_error_of_missing (partsOf st.id) st.synced_parts hq
            rw [hcp] at he
            exact absurd he (by simp)
        have hrest : hasBadTarget elementIds partsOf rest = true := by
          unfold hasBadTarget at h
          rw [List.any_cons, hel, hparts] at h
          simpa [hasBadTarget] using h
        obtain ⟨e, he⟩ := ih hrest
        refine ⟨e, ?_⟩
        unfold resolveStudios
        rw [hel, hcp]
        show Except.map (fun tl => (st.id, assigned) :: tl)
            (resolveStudios elementIds partsOf rest).2 = Except.error e
        rw [he]
        rfl

/-- Resolution performs only listing effects. -/
theorem resolveStudios_effects (elementIds : List String) (partsOf : String → List String)
    (studios : List SyncedPartStudio) :
    ∀ e ∈ (resolveStudios elementIds partsOf studios).1, ∃ s, e = Effect.listParts s := by
  induction studios with
  | nil => intro e he; exact absurd he (by simp [resolveStudios])
  | cons st rest ih =>
    intro eff heff
    rw [show resolveStudios elementIds partsOf (st :: rest)
        = if elementIds.contains st.id then
            match checkParts (partsOf st.id) st.synced_parts with
            | Except.error e => ([Effect.listParts st.id], Except.error e)
            | Except.ok assigned =>
              (Effect.listParts st.id :: (resolveStudios elementIds partsOf rest).1,
               (resolveStudios elementIds partsOf rest).2.map
                 (fun tl => (st.id, assigned) :: tl))
          else ([], Except.error ("Could not find a part studio (" ++ st.id ++ ")"))
      from rfl] at heff
    cases hel : elementIds.contains st.id with
    | false =>
      rw [hel] at heff
      exact absurd heff (by simp)
    | true =>
      rw [hel] at heff
      cases hcp : checkParts (partsOf st.id) st.synced_parts with
      | error e2 =>
        rw [hcp] at heff
        simp at heff
        exact ⟨st.id, heff⟩
      | ok assigned =>
        rw [hcp] at heff
        simp at heff
        rcases heff with h1 | h2
        · exact ⟨st.id, h1⟩
        · exact ih eff h2

/-- C4: when any configured part studio or part id is absent from the live
listings, the export run fails with a resolution error and the effects it
performed contain no translation submission and no output-directory
creation, cleaning or file write — resolution failure is fail-fast and
sibling valid targets see no side effects. -/
theorem c4_resolution_fail_fast (elementIds : List String)
    (partsOf : String → List String) (formats : List (ExportFileFormat × String))
    (cleanPaths : Bool) (studios : List SyncedPartStudio)
    (h : hasBadTarget elementIds partsOf studios = true) :
    (exportRun elementIds partsOf formats cleanPaths studios).2.isSome = true ∧
    (exportRun elementIds partsOf formats cleanPaths studios).1.all
      (fun e => !(isSideEffect e)) = true := by
  obtain ⟨e, he⟩ := resolveStudios_error elementIds partsOf studios h
  have heffects := resolveStudios_effects elementIds partsOf studios
  constructor
  · simp [exportRun, he]
  · rw [List.all_eq_true]
    intro x hx
    have hx2 : x ∈ Effect.listElements :: (resolveStudios elementIds partsOf studios).1 := by
      simpa [exportRun, he] using hx
    rcases List.mem_cons.mp hx2 with h1 | h2
    · subst h1; rfl
    · obtain ⟨s, hs⟩ := heffects x h2
      subst hs; rfl

/-- Witness for C4 at a configuration whose one part id is missing from the
live part list of the studio. -/
theorem c4_resolution_witness :
    hasBadTarget ["e1"] (fun _ => ["p1"]) [⟨"e1", [⟨"p2", "b"⟩]⟩] = true ∧
    ((exportRun ["e1"] (fun _ => ["p1"]) [(ExportFileFormat.ThreeMF, "out3mf")] true
        [⟨"e1", [⟨"p2", "b"⟩]⟩]).2.isSome = true ∧
     (exportRun ["e1"] (fun _ => ["p1"]) [(ExportFileFormat.ThreeMF, "out3mf")] true
        [⟨"e1", [⟨"p2", "b"⟩]⟩]).1.all (fun e => !(isSideEffect e)) = true) :=
  ⟨by decide,
   c4_resolution_fail_fast ["e1"] (fun _ => ["p1"])
     [(ExportFileFormat.ThreeMF, "out3mf")] true [⟨"e1", [⟨"p2", "b"⟩]⟩] (by decide)⟩


/-! ## Direct synchronous export (C5) -/

/-- C5: under the pull orchestrator, the in-flight set handed to the poll
loop contains only jobs for formats whose action is `Translate` — an STL
target never enters the polling loop and is never submitted through
`begin_translation`; for every target with the STL format configured, the
artifact file write happens already in the submission pass; and the direct
fetch itself is a single synchronous request/redirect pair: the first
request and the one request to its Location target. -/
theorem c5_direct_stl_bypasses_polling
    (formats : List (ExportFileFormat × String))
    (partsOf : String → List (String × String))
    (server : String → String → ExportFileFormat → TranslationJob)
    (stlFetch : String → String → String) (studios : List String)
    (st : String) (pb : String × String) (fp : ExportFileFormat × String)
    (net : String → Except String StubResponse) (u loc : String)
    (res res2 : StubResponse)
    (hst : st ∈ studios) (hpb : pb ∈ partsOf st) (hfp : fp ∈ formats)
    (hstl : fp.1 = ExportFileFormat.Stl)
    (hnet : net u = Except.ok res) (hred : isRedirection res.status = true)
    (hloc : res.location = some loc) (hnet2 : net loc = Except.ok res2) :
    ((pullSubmitPhase formats partsOf server stlFetch studios).2).all
      (fun j => decide (exportActionOf j.format = ExportAction.Translate)) = true ∧
    Effect.writeFile (fp.2 ++ "/" ++ pb.2 ++ "." ++ extensionOf ExportFileFormat.Stl)
        (strBytes (stlFetch st pb.1))
      ∈ (pullSubmitPhase formats partsOf server stlFetch studios).1 ∧
    get_part_stl net u = ([u, loc], RustOutcome.ok res2.body) := by
  refine ⟨?_, ?_, ?_⟩
  · rw [List.all_eq_true]
    intro j hj
    simp only [pullSubmitPhase, List.mem_bind, List.mem_map, List.mem_filter] at hj
    obtain ⟨s, hs, q, hq, g, ⟨hg, hact⟩, hj⟩ := hj
    subst hj
    simpa [begin_translation] using hact
  · simp only [pullSubmitPhase, List.mem_bind]
    refine ⟨st, hst, pb, hpb, ?_⟩
    rw [List.mem_append]
    right
    rw [List.mem_bind]
    refine ⟨fp, ?_, ?_⟩
    · rw [List.mem_filter]
      exact ⟨hfp, by rw [hstl]; rfl⟩
    · rw [if_pos hstl, hstl]
      exact List.mem_cons_of_mem _ (List.mem_singleton.mpr rfl)
  · simp [get_part_stl, hnet, hred, hloc, hnet2]

/-- Witness for C5 at a concrete configuration with one STL and one STEP
format, one studio, one part, and a stub redirecting transport. -/
theorem c5_direct_stl_witness :
    "s1" ∈ ["s1"] ∧ ("p1", "bn") ∈ [("p1", "bn")] ∧
    (ExportFileFormat.Stl, "stlout") ∈
      [(ExportFileFormat.Stl, "stlout"), (ExportFileFormat.Step, "stepout")] ∧
    (ExportFileFormat.Stl, "stlout").1 = ExportFileFormat.Stl ∧
    (((pullSubmitPhase [(ExportFileFormat.Stl, "stlout"), (ExportFileFormat.Step, "stepout")]
        (fun _ => [("p1", "bn")])
        (fun _ _ _ => ⟨"t", "turl", TranslationState.Active, none, "doc", none⟩)
        (fun _ _ => "solid") ["s1"]).2).all
      (fun j => decide (exportActionOf j.format = ExportAction.Translate)) = true ∧
     Effect.writeFile ("stlout" ++ "/" ++ "bn" ++ "." ++ extensionOf ExportFileFormat.Stl)
         (strBytes "solid")
       ∈ (pullSubmitPhase [(ExportFileFormat.Stl, "stlout"), (ExportFileFormat.Step, "stepout")]
            (fun _ => [("p1", "bn")])
            (fun _ _ _ => ⟨"t", "turl", TranslationState.Active, none, "doc", none⟩)
            (fun _ _ => "solid") ["s1"]).1 ∧
     get_part_stl
       (fun v => if v = "u" then Except.ok ⟨307, some "loc", ""⟩
                 else Except.ok ⟨200, none, "payload"⟩) "u"
       = (["u", "loc"], RustOutcome.ok "payload")) :=
  ⟨by decide, by decide, by decide, rfl,
   by
    have h := c5_direct_stl_bypasses_polling
      [(ExportFileFormat.Stl, "stlout"), (ExportFileFormat.Step, "stepout")]
      (fun _ => [("p1", "bn")])
      (fun _ _ _ => ⟨"t", "turl", TranslationState.Active, none, "doc", none⟩)
      (fun _ _ => "solid") ["s1"] "s1" ("p1", "bn") (ExportFileFormat.Stl, "stlout")
      (fun v => if v = "u" then Except.ok ⟨307, some "loc", ""⟩
                else Except.ok ⟨200, none, "payload"⟩) "u" "loc"
      ⟨307, some "loc", ""⟩ ⟨200, none, "payload"⟩
      (by decide) (by decide) (by decide) rfl
      (by simp) (by decide) rfl (by simp)
    exact h⟩


/-! ## DATE-line stripping lemmas (C6) -/

/-- A list is a prefix of itself followed by anything. -/
theorem isPrefixOf_self_append (m r : List Char) : m.isPrefixOf (m ++ r) = true := by
  induction m with
  | nil => simp
  | cons c m ih => simp [List.isPrefixOf, ih]

/-- A newline-free pattern that is no prefix of `l` is no prefix of `l`
followed by a newline and more text. -/
theorem marker_no_prefix_of_nl :
    ∀ (m l s : List Char), (∀ c ∈ m, c ≠ '\n') → m.isPrefixOf l = false →
      m.isPrefixOf (l ++ '\n' :: s) = false := by
  intro m
  induction m with
  | nil => intro l s hm h; simp [List.isPrefixOf] at h
  | cons c m ih =>
    intro l s hm h
    cases l with
    | nil =>
      have hcn : c ≠ '\n' := hm c (by simp)
      have hcb : (c == '\n') = false := by
        simpa using hcn
      simp [List.isPrefixOf, hcb]
    | cons b l =>
      simp only [List.cons_append, List.isPrefixOf] at h ⊢
      cases hb : (c == b) with
      | false => simp
      | true =>
        rw [hb] at h
        simp only [Bool.true_and] at h
        simp only [Bool.true_and]
        exact ih l s (fun x hx => hm x (by simp [hx])) h

/-- The `DATE=` marker cannot start at a clean position that runs into a
newline before the marker could end. -/
theorem startsWithDate_append_nl (l s : List Char) (h : startsWithDate l = false) :
    startsWithDate (l ++ '\n' :: s) = false :=
  marker_no_prefix_of_nl dateMarker l s (by decide) h

/-- Splitting a negative marker search at the head. -/
theorem containsDate_cons_false (c : Char) (cs : List Char)
    (h : containsDate (c :: cs) = false) :
    startsWithDate (c :: cs) = false ∧ containsDate cs = false := by
  simpa [containsDate] using h

/-- A character list that does not contain the newline has no newline
member. -/
theorem ne_nl_of_contains_false (t : List Char) (h : t.contains '\n' = false) :
    ∀ c ∈ t, c ≠ '\n' := by
  intro c hc hceq
  subst hceq
  have : t.contains '\n' = true := List.elem_eq_true_of_mem hc
  rw [h] at this
  exact Bool.false_ne_true this

/-- Dropping up to the first newline past a newline-free segment stops
exactly at that newline. -/
theorem dropWhile_until_nl (t r : List Char) (h : ∀ c ∈ t, c ≠ '\n') :
    (t ++ '\n' :: r).dropWhile (fun x => x ≠ '\n') = '\n' :: r := by
  induction t with
  | nil => simp [List.dropWhile]
  | cons c t ih =>
    have hc : c ≠ '\n' := h c (by simp)
    have ih2 := ih (fun x hx => h x (by simp [hx]))
    simp [List.dropWhile_cons, hc]
    simpa using ih2

/-- A newline inserted after a segment is found by `contains`. -/
theorem contains_nl_append (t r : List Char) : (t ++ '\n' :: r).contains '\n' = true :=
  List.elem_eq_true_of_mem (by simp)

/-- Stripping commutes with a clean leading line: a line without the
`DATE=` marker and without newlines passes through unchanged. -/
theorem strip_clean_line (a : List Char) (s : List Char)
    (ha : containsDate a = false) (hnl : ∀ c ∈ a, c ≠ '\n') :
    stripDateLine (a ++ '\n' :: s) = a ++ '\n' :: stripDateLine s := by
  induction a with
  | nil =>
    have hsw : startsWithDate ('\n' :: s) = false := by
      simp [startsWithDate, dateMarker, List.isPrefixOf]
    simp [stripDateLine, hsw]
  | cons c a ih =>
    obtain ⟨h1, h2⟩ := containsDate_cons_false c a ha
    have h3 : startsWithDate (c :: (a ++ '\n' :: s)) = false := by
      have := startsWithDate_append_nl (c :: a) s h1
      simpa using this
    rw [List.cons_append]
    rw [show stripDateLine (c :: (a ++ '\n' :: s))
        = if startsWithDate (c :: (a ++ '\n' :: s))
              && ((c :: (a ++ '\n' :: s)).drop 5).contains '\n' then
            (((c :: (a ++ '\n' :: s)).drop 5).dropWhile (fun x => x ≠ '\n')).tail
          else c :: stripDateLine (a ++ '\n' :: s) from rfl]
    rw [h3]
    simp only [Bool.false_and, Bool.false_eq_true, if_false]
    rw [ih h2 (fun x hx => hnl x (by simp [hx]))]
    rfl

/-- Joining lines with terminating newlines, to state the line-structured
normalization property. -/
def joinLines : List (List Char) → List Char
  | [] => []
  | l :: ls => l ++ '\n' :: joinLines ls

/-- C6 counterexample: on a payload with two embedded DATE lines the client
normalization removes only the first one, not every one as the claim
states. -/
theorem c6_strip_removes_only_first_date_line :
    stripDateLine ("HEADER;\nDATE=1;\nDATE=2;\nBODY;\n".data)
      = ("HEADER;\nDATE=2;\nBODY;\n".data) ∧
    stripDateLine ("HEADER;\nDATE=1;\nDATE=2;\nBODY;\n".data)
      ≠ ("HEADER;\nBODY;\n".data) := by
  constructor <;> decide

/-- C6 amended: the client-boundary normalization removes exactly the first
line carrying the `DATE=` marker — for a payload whose earlier lines are
free of the marker and of embedded newlines, the marker line and its
newline disappear and every other character is left unchanged; in
particular a payload with exactly one DATE line loses exactly that line. -/
theorem c6_strip_first_date_line (A B : List (List Char)) (tl : List Char)
    (hA : A.all (fun a => !(containsDate a) && !(a.contains '\n')) = true)
    (htl : tl.contains '\n' = false) :
    stripDateLine (joinLines (A ++ (dateMarker ++ tl) :: B)) = joinLines (A ++ B) := by
  induction A with
  | nil =>
    have hnl := ne_nl_of_contains_false tl htl
    rw [List.nil_append, List.nil_append]
    rw [show joinLines ((dateMarker ++ tl) :: B)
        = (dateMarker ++ tl) ++ '\n' :: joinLines B from rfl]
    rw [List.append_assoc]
    have hsw : startsWithDate (dateMarker ++ (tl ++ '\n' :: joinLines B)) = true :=
      isPrefixOf_self_append dateMarker (tl ++ '\n' :: joinLines B)
    have hdrop : (dateMarker ++ (tl ++ '\n' :: joinLines B)).drop 5
        = tl ++ '\n' :: joinLines B := rfl
    have hcond : (startsWithDate (dateMarker ++ (tl ++ '\n' :: joinLines B))
        && ((dateMarker ++ (tl ++ '\n' :: joinLines B)).drop 5).contains '\n') = true := by
      rw [hsw, hdrop, contains_nl_append tl (joinLines B)]
      rfl
    rw [show stripDateLine (dateMarker ++ (tl ++ '\n' :: joinLines B))
        = if startsWithDate (dateMarker ++ (tl ++ '\n' :: joinLines B))
              && ((dateMarker ++ (tl ++ '\n' :: joinLines B)).drop 5).contains '\n' then
            (((dateMarker ++ (tl ++ '\n' :: joinLines B)).drop 5).dropWhile
               (fun x => x ≠ '\n')).tail
          else 'D' :: stripDateLine ('A' :: 'T' :: 'E' :: '=' :: (tl ++ '\n' :: joinLines B))
        from rfl]
    rw [if_pos hcond]
    rw [hdrop, dropWhile_until_nl tl (joinLines B) hnl]
    rfl
  | cons a A ih =>
    have hsplit : (!(containsDate a) && !(a.contains '\n')) = true
        ∧ A.all (fun x => !(containsDate x) && !(x.contains '\n')) = true := by
      simpa using hA
    have h1 : containsDate a = false := by
      have hh := hsplit.1
      simp at hh
      exact hh.1
    have h2 : ∀ c ∈ a, c ≠ '\n' := by
      have hh := hsplit.1
      simp at hh
      intro c hc hce
      subst hce
      exact hh.2 hc
    rw [List.cons_append]
    rw [show joinLines (a :: (A ++ (dateMarker ++ tl) :: B))
        = a ++ '\n' :: joinLines (A ++ (dateMarker ++ tl) :: B) from rfl]
    rw [strip_clean_line a _ h1 h2]
    rw [ih hsplit.2]
    rfl

/-- Witness for C6 amended at the synthetic payload of the specification,
one clean header line, one embedded DATE line, one body line. -/
theorem c6_strip_first_date_witness :
    ([("** PART;".data)] : List (List Char)).all
      (fun a => !(containsDate a) && !(a.contains '\n')) = true ∧
    ("2023-06-22T10:00:01 (UTC);".data).contains '\n' = false ∧
    stripDateLine (joinLines (["** PART;".data]
        ++ (dateMarker ++ "2023-06-22T10:00:01 (UTC);".data) :: ["BODY;".data]))
      = joinLines (["** PART;".data] ++ ["BODY;".data]) :=
  ⟨by decide, by decide,
   c6_strip_first_date_line ["** PART;".data] ["BODY;".data]
     ("2023-06-22T10:00:01 (UTC);".data) (by decide) (by decide)⟩


/-! ## Error propagation versus panics (C8) -/

/-- C8 counterexample: a non-redirect response on the direct-export
endpoint does not surface as a propagated error value — the embedded
`assert!` aborts, so the outcome is a panic, not an `Err` the caller could
receive. -/
theorem c8_non_redirect_panics :
    (get_part_stl (fun _ => Except.ok ⟨200, none, "body"⟩) "u").2
      = RustOutcome.panicked "Redirect expected" ∧
    ((get_part_stl (fun _ => Except.ok ⟨200, none, "body"⟩) "u").2).isErr = false ∧
    ((get_part_stl (fun _ => Except.ok ⟨200, none, "body"⟩) "u").2).isPanic = true := by
  refine ⟨rfl, rfl, rfl⟩

/-- C8 amended: a transport-level send failure is indeed propagated to the
caller as an error value, fatal only for that operation and never retried;
but a non-redirect response and a missing Location header on the
direct-export endpoint abort the process via assert/expect panics rather
than error values, and a failed poll inside the orchestrator loop aborts
via unwrap rather than surfacing the error. -/
theorem c8_error_propagation_amended
    (net1 : String → Except String StubResponse) (u1 e1 : String)
    (net2 : String → Except String StubResponse) (u2 : String) (res2 : StubResponse)
    (net3 : String → Except String StubResponse) (u3 : String) (res3 : StubResponse)
    (refresh : TranslationJobWithOutput → Except String TranslationJobWithOutput)
    (download : TranslationJobWithOutput → List Nat)
    (formatPath : ExportFileFormat → String)
    (active : List TranslationJobWithOutput) (j : TranslationJobWithOutput)
    (perr : String)
    (h1 : net1 u1 = Except.error e1)
    (h2 : net2 u2 = Except.ok res2) (h2r : isRedirection res2.status = false)
    (h3 : net3 u3 = Except.ok res3) (h3r : isRedirection res3.status = true)
    (h3l : res3.location = none)
    (hj : j ∈ active) (hjerr : refresh j = Except.error perr) :
    (get_part_stl net1 u1).2 = RustOutcome.err e1 ∧
    (get_part_stl net2 u2).2 = RustOutcome.panicked "Redirect expected" ∧
    (get_part_stl net3 u3).2 = RustOutcome.panicked "Missing location header" ∧
    pollPassChecked refresh download formatPath active
      = RustOutcome.panicked "called `Result::unwrap()` on an `Err` value" := by
  refine ⟨?_, ?_, ?_, ?_⟩
  · simp [get_part_stl, h1]
  · simp [get_part_stl, h2, h2r]
  · simp [get_part_stl, h3, h3r, h3l]
  · have hall : active.all (fun jj => (refresh jj).isOk) = false := by
      cases hq : active.all (fun jj => (refresh jj).isOk) with
      | false => rfl
      | true =>
        have hjj := (List.all_eq_true.mp hq) j hj
        rw [hjerr] at hjj
        exact absurd hjj (by simp [Except.isOk, Except.toBool])
    simp [pollPassChecked, hall]

/-- Witness for C8 amended over concrete stub transports: a failing send, a
200 response, a redirect without a Location header, and a one-job poll pass
whose poll fails. -/
theorem c8_error_propagation_witness :
    ((fun _ => Except.error "boom" : String → Except String StubResponse) "u1"
       = Except.error "boom" ∧
     (fun _ => Except.ok ⟨200, none, "b"⟩ : String → Except String StubResponse) "u2"
       = Except.ok ⟨200, none, "b"⟩ ∧
     isRedirection (200 : Nat) = false ∧
     (fun _ => Except.ok ⟨302, none, "b"⟩ : String → Except String StubResponse) "u3"
       = Except.ok ⟨302, none, "b"⟩ ∧
     isRedirection (302 : Nat) = true ∧
     (⟨⟨"n", "url", TranslationState.Active, none, "doc", none⟩, "f.3mf",
        ExportFileFormat.ThreeMF⟩ : TranslationJobWithOutput)
       ∈ [(⟨⟨"n", "url", TranslationState.Active, none, "doc", none⟩, "f.3mf",
            ExportFileFormat.ThreeMF⟩ : TranslationJobWithOutput)]) ∧
    ((get_part_stl (fun _ => Except.error "boom") "u1").2 = RustOutcome.err "boom" ∧
     (get_part_stl (fun _ => Except.ok ⟨200, none, "b"⟩) "u2").2
       = RustOutcome.panicked "Redirect expected" ∧
     (get_part_stl (fun _ => Except.ok ⟨302, none, "b"⟩) "u3").2
       = RustOutcome.panicked "Missing location header" ∧
     pollPassChecked (fun _ => Except.error "pollfail") (fun _ => []) (fun _ => "out")
       [(⟨⟨"n", "url", TranslationState.Active, none, "doc", none⟩, "f.3mf",
          ExportFileFormat.ThreeMF⟩ : TranslationJobWithOutput)]
       = RustOutcome.panicked "called `Result::unwrap()` on an `Err` value") :=
  ⟨⟨rfl, rfl, rfl, rfl, rfl, by decide⟩,
   c8_error_propagation_amended
     (fun _ => Except.error "boom") "u1" "boom"
     (fun _ => Except.ok ⟨200, none, "b"⟩) "u2" ⟨200, none, "b"⟩
     (fun _ => Except.ok ⟨302, none, "b"⟩) "u3" ⟨302, none, "b"⟩
     (fun _ => Except.error "pollfail") (fun _ => []) (fun _ => "out")
     [⟨⟨"n", "url", TranslationState.Active, none, "doc", none⟩, "f.3mf",
        ExportFileFormat.ThreeMF⟩]
     ⟨⟨"n", "url", TranslationState.Active, none, "doc", none⟩, "f.3mf",
        ExportFileFormat.ThreeMF⟩
     "pollfail" rfl rfl rfl rfl rfl rfl (by decide) rfl⟩

/-! ## Signature determinism and collisions (C9) -/

/-- C9 counterexample: two tuples that differ only in the letter case of
the query are distinct, yet the lowercase folding inside the signer gives
them the same plaintext and therefore the same signature and Authorization
header — distinct input tuples can collide. -/
theorem c9_distinct_tuples_equal_signature :
    (("get", "/api/parts", "units=MM", "mon, 01 jan 2024 00:00:00 gmt", "abc123")
      ≠ ("get", "/api/parts", "units=mm", "mon, 01 jan 2024 00:00:00 gmt", "abc123")) ∧
    (onShapeRequest "acc" "sec" "get" "/api/parts" "units=MM"
        "mon, 01 jan 2024 00:00:00 gmt" "abc123").authorization
      = (onShapeRequest "acc" "sec" "get" "/api/parts" "units=mm"
          "mon, 01 jan 2024 00:00:00 gmt" "abc123").authorization := by
  constructor
  · decide
  · have h : signaturePlaintext "get" "abc123" "mon, 01 jan 2024 00:00:00 gmt"
        "/api/parts" (percentDecode "units=MM")
        = signaturePlaintext "get" "abc123" "mon, 01 jan 2024 00:00:00 gmt"
          "/api/parts" (percentDecode "units=mm") := by decide
    have e1 : (onShapeRequest "acc" "sec" "get" "/api/parts" "units=MM"
        "mon, 01 jan 2024 00:00:00 gmt" "abc123").authorization
        = "On " ++ "acc" ++ ":HmacSHA256:"
          ++ computeSignature "sec" (signaturePlaintext "get" "abc123"
               "mon, 01 jan 2024 00:00:00 gmt" "/api/parts"
               (percentDecode "units=MM")) := rfl
    have e2 : (onShapeRequest "acc" "sec" "get" "/api/parts" "units=mm"
        "mon, 01 jan 2024 00:00:00 gmt" "abc123").authorization
        = "On " ++ "acc" ++ ":HmacSHA256:"
          ++ computeSignature "sec" (signaturePlaintext "get" "abc123"
               "mon, 01 jan 2024 00:00:00 gmt" "/api/parts"
               (percentDecode "units=mm")) := rfl
    rw [e1, e2, h]

/-- C9 amended: the signature is deterministic and depends on the request
only through the lowercase-folded signature plaintext: two input tuples
with equal folded plaintexts — equal tuples in particular, but also
distinct tuples that fold together, such as queries differing only in
case — receive identical Authorization headers. The claimed absence of
collisions between distinct tuples does not hold. -/
theorem c9_signature_depends_on_folded_plaintext
    (accessKey secretKey m1 p1 q1 d1 n1 m2 p2 q2 d2 n2 : String)
    (h : signaturePlaintext m1 n1 d1 p1 (percentDecode q1)
       = signaturePlaintext m2 n2 d2 p2 (percentDecode q2)) :
    (onShapeRequest accessKey secretKey m1 p1 q1 d1 n1).authorization
      = (onShapeRequest accessKey secretKey m2 p2 q2 d2 n2).authorization := by
  have e1 : (onShapeRequest accessKey secretKey m1 p1 q1 d1 n1).authorization
      = "On " ++ accessKey ++ ":HmacSHA256:"
        ++ computeSignature secretKey
             (signaturePlaintext m1 n1 d1 p1 (percentDecode q1)) := rfl
  have e2 : (onShapeRequest accessKey secretKey m2 p2 q2 d2 n2).authorization
      = "On " ++ accessKey ++ ":HmacSHA256:"
        ++ computeSignature secretKey
             (signaturePlaintext m2 n2 d2 p2 (percentDecode q2)) := rfl
  rw [e1, e2, h]

/-- Witness for C9 amended: methods differing only in case fold to the same
plaintext, and the theorem yields the same Authorization header. -/
theorem c9_signature_witness :
    signaturePlaintext "GET" "n1" "d1" "/p" (percentDecode "a=1")
      = signaturePlaintext "get" "n1" "d1" "/p" (percentDecode "a=1") ∧
    (onShapeRequest "ak" "sk" "GET" "/p" "a=1" "d1" "n1").authorization
      = (onShapeRequest "ak" "sk" "get" "/p" "a=1" "d1" "n1").authorization :=
  ⟨by decide,
   c9_signature_depends_on_folded_plaintext "ak" "sk" "GET" "/p" "a=1" "d1" "n1"
     "get" "/p" "a=1" "d1" "n1" (by decide)⟩

end Offshape
